import Mathlib

/-!
Verification development for the search-query subsystem of the hermeslink
repository (`src/django/hlink/configs/search.py`): a scanner, a recursive
descent parser and an interpreter that lower an operator-typed query string
into a composable filter predicate (Django `Q` objects in the source).

The Python classes are embedded shallowly:

* the `Scanner` becomes a total function over `List Char` (the scanner's
  index arithmetic on `self.text` is mirrored on the character list);
* the `Parser`'s mutually recursive methods become fuel-indexed functions
  returning `Except Error (Expression × Nat)` where the `Nat` is the parser
  cursor (`self.current`); running out of fuel models Python's
  `RecursionError` on unboundedly nested input, and Python's `IndexError`
  on out-of-range token access is an explicit error value;
* the `Interpreter` visitor becomes a structural recursion producing a
  `Predicate` value: `Predicate.q key val` stands for the Django kwarg filter
  `Q(**\x7bkey: val\x7d)`, and `Predicate.and`, `Predicate.or`, `Predicate.not` stand for
  `&`, `|` and `~` on `Q` objects;
* `datetime.fromisoformat` (Python 3.11+) is modelled on exactly the five
  datetime shapes the scanner can emit, validating calendar fields the way
  CPython does and signalling `ValueError` otherwise; `django.utils.timezone`
  naivety and `make_aware` are modelled with an optional timezone tag.
-/

set_option maxHeartbeats 4000000
set_option maxRecDepth 4000

/-- Token types for the query lexer, mirroring the `TokenType` enum. -/
inductive TokenType where
  | MODEL_H1 | MODEL_H2 | MODEL_H3 | MODEL_H4 | MODEL_H5 | MODEL_H6
  | CONFG_ACQ | CONFG_ACQ0 | CONFG_ASIC0 | CONFG_ASIC1 | CONFG_BEE | CONFG_LIKTRG | CONFG_OBS
  | MODEL | UPLINKED | SUBMITTED
  | EQUAL | BANG_EQUAL | GREATER | GREATER_EQUAL | LESSER | LESSER_EQUAL
  | NOT | OR | AND | BY | ISNULL
  | LEFT_PAREN | RIGHT_PAREN
  | DATETIME | LITERAL | TRUE | FALSE
  | EOF
deriving DecidableEq

/-- A lexical token with type and content, mirroring the `Token` dataclass. -/
structure Token where
  ttype : TokenType
  lexeme : String
deriving DecidableEq

/-- `SPACECRAFTS_NAMES` from `hermes/__init__.py`. -/
def SPACECRAFTS_NAMES : List String := ["H1", "H2", "H3", "H4", "H5", "H6"]

/-- `Configuration.MODELS = tuple(zip(SPACECRAFTS_NAMES, SPACECRAFTS_NAMES))`
from `configs/models.py`. -/
def MODELS : List (String × String) := SPACECRAFTS_NAMES.zip SPACECRAFTS_NAMES

/-- `RESERVED_WORDS_SPACECRAFT_NAMES` as a lookup function. -/
def RESERVED_WORDS_SPACECRAFT_NAMES : String → Option TokenType
  | "h1" => some .MODEL_H1
  | "h2" => some .MODEL_H2
  | "h3" => some .MODEL_H3
  | "h4" => some .MODEL_H4
  | "h5" => some .MODEL_H5
  | "h6" => some .MODEL_H6
  | _ => none

/-- `RESERVED_WORDS_SPACECRAFT_NAMES_INVERSE`: maps each model token kind to
`Configuration.MODELS[i][0]`, with the same (out-of-order) index assignments
as the source dict literal. -/
def RESERVED_WORDS_SPACECRAFT_NAMES_INVERSE : TokenType → Option String
  | .MODEL_H1 => (MODELS.get? 0).map Prod.fst
  | .MODEL_H2 => (MODELS.get? 1).map Prod.fst
  | .MODEL_H4 => (MODELS.get? 3).map Prod.fst
  | .MODEL_H5 => (MODELS.get? 4).map Prod.fst
  | .MODEL_H6 => (MODELS.get? 5).map Prod.fst
  | .MODEL_H3 => (MODELS.get? 2).map Prod.fst
  | _ => none

/-- `RESERVED_WORDS_CONFIGURATION_NAMES` as a lookup function. -/
def RESERVED_WORDS_CONFIGURATION_NAMES : String → Option TokenType
  | "acq" => some .CONFG_ACQ
  | "acq0" => some .CONFG_ACQ0
  | "asic0" => some .CONFG_ASIC0
  | "asic1" => some .CONFG_ASIC1
  | "bee" => some .CONFG_BEE
  | "liktrg" => some .CONFG_LIKTRG
  | "obs" => some .CONFG_OBS
  | _ => none

/-- `RESERVED_WORDS_CONFIGURATION_NAMES_INVERSE = {v: k for k, v in ...}`. -/
def RESERVED_WORDS_CONFIGURATION_NAMES_INVERSE : TokenType → Option String
  | .CONFG_ACQ => some "acq"
  | .CONFG_ACQ0 => some "acq0"
  | .CONFG_ASIC0 => some "asic0"
  | .CONFG_ASIC1 => some "asic1"
  | .CONFG_BEE => some "bee"
  | .CONFG_LIKTRG => some "liktrg"
  | .CONFG_OBS => some "obs"
  | _ => none

/-- `RESERVED_WORDS`: union of the spacecraft and configuration tables with
the keyword entries. -/
def RESERVED_WORDS (s : String) : Option TokenType :=
  match RESERVED_WORDS_SPACECRAFT_NAMES s with
  | some t => some t
  | none =>
    match RESERVED_WORDS_CONFIGURATION_NAMES s with
    | some t => some t
    | none =>
      match s with
      | "uplinked" => some .UPLINKED
      | "submitted" => some .SUBMITTED
      | "by" => some .BY
      | "or" => some .OR
      | "and" => some .AND
      | "not" => some .NOT
      | _ => none

/-- One position of a fixed-shape datetime pattern: a decimal digit or an
exact character.  The `DATETIME_PATTERNS` regexes in the source are anchored
(`^...$`) and built only from `\d` counts and literal characters, so each
corresponds to such a mask, matched against a slice of exactly the pattern
length. -/
inductive MaskChar where
  | digit
  | exact (c : Char)
deriving DecidableEq

/-- Full-match of an anchored fixed-shape pattern against a character list. -/
def matchesMask : List MaskChar → List Char → Bool
  | [], [] => true
  | .digit :: ms, c :: cs => c.isDigit && matchesMask ms cs
  | .exact a :: ms, c :: cs => (c = a) && matchesMask ms cs
  | _, _ => false

/-- Mask for `^\d\x7b4\x7d-\d\x7b2\x7d-\d\x7b2\x7d$` (length 10). -/
def mask10 : List MaskChar :=
  [.digit, .digit, .digit, .digit, .exact '-', .digit, .digit, .exact '-', .digit, .digit]

/-- Mask for the pattern of length 16 (`...THH:MM`). -/
def mask16 : List MaskChar :=
  mask10 ++ [.exact 'T', .digit, .digit, .exact ':', .digit, .digit]

/-- Mask for the pattern of length 17 (`...THH:MMZ`). -/
def mask17 : List MaskChar := mask16 ++ [.exact 'Z']

/-- Mask for the pattern of length 19 (`...THH:MM:SS`). -/
def mask19 : List MaskChar := mask16 ++ [.exact ':', .digit, .digit]

/-- Mask for the pattern of length 20 (`...THH:MM:SSZ`). -/
def mask20 : List MaskChar := mask19 ++ [.exact 'Z']

namespace Scanner

/-- `Scanner._catch_datetime`: tries the five patterns longest-first on the
slice `text[current - 1 : current - 1 + plen]`; on a match returns the slice
and the advanced cursor `current + plen - 1` (the leading digit was already
consumed).  `current` is the cursor value after `_advance` consumed the
digit. -/
def catch_datetime (text : List Char) (current : Nat) : Option (String × Nat) :=
  let rest := text.drop (current - 1)
  if matchesMask mask20 (rest.take 20) then some (String.mk (rest.take 20), current + 19)
  else if matchesMask mask19 (rest.take 19) then some (String.mk (rest.take 19), current + 18)
  else if matchesMask mask17 (rest.take 17) then some (String.mk (rest.take 17), current + 16)
  else if matchesMask mask16 (rest.take 16) then some (String.mk (rest.take 16), current + 15)
  else if matchesMask mask10 (rest.take 10) then some (String.mk (rest.take 10), current + 9)
  else none

/-- ASCII lowercasing of a character, as `str.lower` acts on the
characters that can occur in a reserved word. -/
def lowerChar (c : Char) : Char :=
  if 'A' ≤ c ∧ c ≤ 'Z' then Char.ofNat (c.toNat + 32) else c

/-- `literal.lower()` (ASCII): the case-insensitive key for the
reserved-word lookup. -/
def lowerStr (s : String) : String := String.mk (s.data.map lowerChar)

/-- Characters continuing a literal run in `Scanner._catch_literal`:
alphanumeric, `_` or `.` (Python `isalnum` restricted to ASCII). -/
def isLiteralChar (c : Char) : Bool := c.isAlphanum || c = '_' || c = '.'

/-- Length of the initial run of literal characters: the number of
iterations of the `while` loop in `Scanner._catch_literal`. -/
def literalRun : List Char → Nat
  | [] => 0
  | c :: cs => if isLiteralChar c then literalRun cs + 1 else 0

/-- End position of the literal run of `Scanner._catch_literal`: advances
while the next character is a literal character. -/
def literalEnd (text : List Char) (current : Nat) : Nat :=
  current + literalRun (text.drop current)

/-- `Scanner._match`: look at the character after the consumed one. -/
def matchNext (text : List Char) (pos : Nat) (expected : Char) : Bool :=
  match text.get? pos with
  | some c => c = expected
  | none => false

/-- `Scanner._scan_token`: consumes at least one character starting at
`current` and returns the emitted token, if any, with the new cursor.
The branch order mirrors the source exactly. -/
def scan_token (text : List Char) (current : Nat) : Option Token × Nat :=
  match text.get? current with
  | none => (none, current + 1)
  | some c =>
    if c = '=' then (some ⟨.EQUAL, "="⟩, current + 1)
    else if c = '(' then (some ⟨.LEFT_PAREN, "("⟩, current + 1)
    else if c = ')' then (some ⟨.RIGHT_PAREN, ")"⟩, current + 1)
    else if c.isWhitespace then (none, current + 1)
    else if c = '>' then
      if matchNext text (current + 1) '=' then (some ⟨.GREATER_EQUAL, ">="⟩, current + 2)
      else (some ⟨.GREATER, ">"⟩, current + 1)
    else if c = '<' then
      if matchNext text (current + 1) '=' then (some ⟨.LESSER_EQUAL, "<="⟩, current + 2)
      else (some ⟨.LESSER, "<"⟩, current + 1)
    else if c = '!' then
      if matchNext text (current + 1) '=' then (some ⟨.BANG_EQUAL, "!="⟩, current + 2)
      else (some ⟨.NOT, "!"⟩, current + 1)
    else if c.isDigit then
      match catch_datetime text (current + 1) with
      | some (lex, cur') => (some ⟨.DATETIME, lex⟩, cur')
      | none => (none, current + 1)
    else
      let stop := literalEnd text (current + 1)
      let lexeme := String.mk ((text.drop current).take (stop - current))
      match RESERVED_WORDS (Scanner.lowerStr lexeme) with
      | some k => (some ⟨k, lexeme⟩, stop)
      | none => (some ⟨.LITERAL, lexeme⟩, stop)

theorem literalEnd_ge (text : List Char) (current : Nat) :
    current ≤ literalEnd text current := Nat.le_add_right _ _

theorem catch_datetime_snd_ge (text : List Char) (current : Nat)
    (lex : String) (cur' : Nat) (h : catch_datetime text current = some (lex, cur')) :
    current + 9 ≤ cur' := by
  unfold catch_datetime at h
  dsimp only at h
  split_ifs at h <;> simp_all <;> omega

theorem scan_token_snd_ge (text : List Char) (current : Nat) :
    current + 1 ≤ (scan_token text current).2 := by
  unfold scan_token
  split
  · exact Nat.le_refl _
  · split
    · exact Nat.le_refl _
    · split
      · exact Nat.le_refl _
      · split
        · exact Nat.le_refl _
        · split
          · exact Nat.le_refl _
          · split
            · split <;> omega
            · split
              · split <;> omega
              · split
                · split <;> omega
                · split
                  · split
                    · rename_i lex cur' h
                      have := catch_datetime_snd_ge text (current + 1) lex cur' h
                      omega
                    · exact Nat.le_refl _
                  · have := literalEnd_ge text (current + 1)
                    dsimp only
                    split <;> simp <;> omega

/-- `Scanner.scan_tokens` main loop: while not at end, scan one token;
finally append the EOF token.  The `fuel` argument bounds the number of loop
iterations; as `scan_token` strictly advances the cursor
(`scan_token_snd_ge`), any `fuel ≥ text.length - current` makes the
zero-fuel branch coincide with the loop's own exit, so with the budget
supplied by `scan_tokens` this is exactly the source's `while` loop. -/
def scanLoop (text : List Char) : Nat → Nat → List Token
  | 0, _ => [⟨.EOF, ""⟩]
  | fuel + 1, current =>
    if current < text.length then
      let r := scan_token text current
      r.1.toList ++ scanLoop text fuel r.2
    else [⟨.EOF, ""⟩]

/-- `Scanner(query).scan_tokens()`: tokenizes a query string.  A total pure
function of its input; the scanner raises no errors. -/
def scan_tokens (s : String) : List Token := scanLoop s.toList s.toList.length 0

end Scanner

/-- The `Expression` AST: `Binary`, `Unary`, `Grouping` and the `Query` leaf,
each carrying the `Token`s the source constructors store. -/
inductive Expression where
  | binary (left : Expression) (operator : Token) (right : Expression)
  | unary (operator : Token) (right : Expression)
  | grouping (expression : Expression)
  | query (key operator value : Token)
deriving DecidableEq

/-- The exceptions the pipeline can signal: the source's `ParseError` and
`InterpreterError` classes, plus the Python built-ins the code can let
escape: `ValueError` from `datetime.fromisoformat`, `KeyError` from a dict
lookup, `IndexError` from out-of-range token access, and `RecursionError`
for exhaustion of the recursion bound on nested input. -/
inductive Error where
  | parseError (msg : String)
  | interpreterError (msg : String)
  | valueError
  | keyError
  | indexError
  | recursionError
deriving DecidableEq

instance {ε α : Type} [DecidableEq ε] [DecidableEq α] : DecidableEq (Except ε α) := fun x y =>
  match x, y with
  | .ok a, .ok b =>
    if h : a = b then .isTrue (by rw [h]) else .isFalse (by intro hc; injection hc; contradiction)
  | .error a, .error b =>
    if h : a = b then .isTrue (by rw [h]) else .isFalse (by intro hc; injection hc; contradiction)
  | .ok _, .error _ => .isFalse (fun hc => by cases hc)
  | .error _, .ok _ => .isFalse (fun hc => by cases hc)

namespace Parser

/-- The set literal in `Parser._primary` for spacecraft atoms. -/
def spacecraftKinds : List TokenType :=
  [.MODEL_H1, .MODEL_H2, .MODEL_H3, .MODEL_H4, .MODEL_H5, .MODEL_H6]

/-- The set literal in `Parser._primary` for configuration atoms. -/
def configKinds : List TokenType :=
  [.CONFG_ACQ, .CONFG_ACQ0, .CONFG_ASIC0, .CONFG_ASIC1, .CONFG_BEE, .CONFG_LIKTRG, .CONFG_OBS]

/-- The comparator set in `Parser._primary`. -/
def comparatorKinds : List TokenType :=
  [.GREATER, .GREATER_EQUAL, .LESSER, .LESSER_EQUAL, .EQUAL, .BANG_EQUAL]

/-- `Parser._peek`: `self.tokens[self.current]`, with Python's `IndexError`
made explicit. -/
def peekT (ts : List Token) (pos : Nat) : Except Error Token :=
  match ts.get? pos with
  | some t => .ok t
  | none => .error .indexError

/-- `Parser._match`: `None` when at end or the next token's type is not in
the expected set; otherwise consumes and returns the token. -/
def pMatch (ts : List Token) (pos : Nat) (expected : List TokenType) :
    Except Error (Option (Token × Nat)) :=
  match ts.get? pos with
  | none => .error .indexError
  | some t =>
    if t.ttype = .EOF then .ok none
    else if t.ttype ∈ expected then .ok (some (t, pos + 1))
    else .ok none

/-- `Parser._at_end`: whether the next token is EOF. -/
def pAtEnd (ts : List Token) (pos : Nat) : Except Error Bool :=
  match ts.get? pos with
  | none => .error .indexError
  | some t => .ok (t.ttype = .EOF)

/-- `Parser._check`: false at end, otherwise membership of the next token's
type. -/
def pCheck (ts : List Token) (pos : Nat) (expected : List TokenType) : Except Error Bool :=
  match ts.get? pos with
  | none => .error .indexError
  | some t => .ok (t.ttype ≠ .EOF ∧ t.ttype ∈ expected : Prop)

/-- `Parser._consume`: consume the next token when it matches, else raise
`ParseError` with the given message. -/
def pConsume (ts : List Token) (pos : Nat) (expected : TokenType) (msg : String) :
    Except Error (Token × Nat) :=
  match ts.get? pos with
  | none => .error .indexError
  | some t =>
    if t.ttype ≠ .EOF ∧ t.ttype = expected then .ok (t, pos + 1)
    else .error (.parseError msg)

/-- Selector for the mutually recursive parser methods; the loop bodies of
`_or` and `_and` carry their accumulated left expression.  A single
fuel-indexed interpreter over these frames gives the mutual recursion a
structural (hence kernel-reducible) form; one unit of fuel is charged per
nested call, as one Python stack frame would be. -/
inductive Frame where
  | expression
  | orE
  | orLoop (e : Expression)
  | andE
  | andLoop (e : Expression)
  | unaryE
  | primary

/-- The parser's mutually recursive methods `_expression`, `_or`, `_and`,
`_unary` and `_primary` (the two `while` loops as their own frames), each
returning the parsed expression and the new cursor. -/
def run : Nat → Frame → List Token → Nat → Except Error (Expression × Nat)
  | 0, _, _, _ => .error .recursionError
  | fuel + 1, frame, ts, pos =>
    match frame with
    | .expression => run fuel .orE ts pos
    | .orE => do
      let (e, p) ← run fuel .andE ts pos
      run fuel (.orLoop e) ts p
    | .orLoop e => do
      match ← pMatch ts pos [.OR] with
      | some (opTok, p1) => do
        let (r, p2) ← run fuel .andE ts p1
        run fuel (.orLoop (.binary e opTok r)) ts p2
      | none => .ok (e, pos)
    | .andE => do
      let (e, p) ← run fuel .unaryE ts pos
      run fuel (.andLoop e) ts p
    | .andLoop e => do
      match ← pMatch ts pos [.AND] with
      | some (opTok, p1) => do
        let (r, p2) ← run fuel .unaryE ts p1
        run fuel (.andLoop (.binary e ⟨.AND, opTok.lexeme⟩ r)) ts p2
      | none => do
        let atEnd ← pAtEnd ts pos
        if atEnd then .ok (e, pos)
        else do
          let stop ← pCheck ts pos [.OR, .RIGHT_PAREN]
          if stop then .ok (e, pos)
          else do
            let (r, p2) ← run fuel .unaryE ts pos
            run fuel (.andLoop (.binary e ⟨.AND, "_and"⟩ r)) ts p2
    | .unaryE => do
      match ← pMatch ts pos [.NOT] with
      | some (opTok, p1) => do
        let (r, p2) ← run fuel .primary ts p1
        .ok (.unary opTok r, p2)
      | none => run fuel .primary ts pos
    | .primary => do
      match ← pMatch ts pos spacecraftKinds with
      | some (t, p1) => .ok (.query ⟨.MODEL, "_model"⟩ ⟨.EQUAL, "_="⟩ t, p1)
      | none =>
        match ← pMatch ts pos configKinds with
        | some (t, p1) => .ok (.query t ⟨.ISNULL, "_isnull"⟩ ⟨.ISNULL, "_isnull"⟩, p1)
        | none =>
          match ← pMatch ts pos [.SUBMITTED, .UPLINKED] with
          | some (noun, p1) => do
            match ← pMatch ts p1 comparatorKinds with
            | some (pred, p2) => do
              match ← pMatch ts p2 [.DATETIME] with
              | some (objective, p3) => .ok (.query noun pred objective, p3)
              | none =>
                .error (.parseError ("A valid datetime is expected after \x27" ++ noun.lexeme
                  ++ " " ++ pred.lexeme ++ "\x27 expression."))
            | none =>
              match ← pMatch ts p1 [.BY] with
              | some (pred, p2) => do
                match ← pMatch ts p2 [.LITERAL] with
                | some (objective, p3) => .ok (.query noun pred objective, p3)
                | none =>
                  .error (.parseError ("An username is expected after \x27" ++ noun.lexeme
                    ++ " " ++ pred.lexeme ++ "\x27 expression."))
              | none => .ok (.query noun ⟨.ISNULL, "_isnull"⟩ ⟨.ISNULL, "_isnull"⟩, p1)
          | none =>
            match ← pMatch ts pos [.LEFT_PAREN] with
            | some (_, p1) => do
              let (e, p2) ← run fuel .expression ts p1
              let (_, p3) ← pConsume ts p2 .RIGHT_PAREN "Expected \x27)\x27 after expression"
              .ok (.grouping e, p3)
            | none => do
              let t ← peekT ts pos
              .error (.parseError ("An expression cannot start with \x27" ++ t.lexeme ++ "\x27"))

/-- `Parser._expression`. -/
def pExpression (fuel : Nat) (ts : List Token) (pos : Nat) : Except Error (Expression × Nat) :=
  run fuel .expression ts pos

/-- `Parser(tokens).parse()`: parses a token list into an expression AST.
The fuel budget `7 * length + 8` charges one unit per nested parser call;
it covers every input the recursion can consume (each loop iteration and
each parenthesis strictly advances the cursor), the residue modelling
Python's recursion limit. -/
def parse (ts : List Token) : Except Error Expression :=
  (pExpression (7 * ts.length + 8) ts 0).map Prod.fst

end Parser

/-- A timezone tag: `utc` for an explicit `Z` suffix, `localtime` for the
Django default timezone that `timezone.make_aware` attaches. -/
inductive Tz where
  | utc
  | localtime
deriving DecidableEq

/-- A `datetime.datetime` value as far as this pipeline observes it:
calendar fields plus an optional timezone (`tzinfo is None` = naive). -/
structure DateTime where
  year : Nat
  month : Nat
  day : Nat
  hour : Nat
  minute : Nat
  second : Nat
  tzinfo : Option Tz
deriving DecidableEq

/-- Gregorian leap-year rule, as used by `datetime`. -/
def isLeap (y : Nat) : Bool := y % 4 = 0 && (y % 100 ≠ 0 || y % 400 = 0)

/-- Days in a month, as validated by `datetime`. -/
def daysInMonth (y m : Nat) : Nat :=
  match m with
  | 1 => 31 | 2 => if isLeap y then 29 else 28 | 3 => 31 | 4 => 30
  | 5 => 31 | 6 => 30 | 7 => 31 | 8 => 31
  | 9 => 30 | 10 => 31 | 11 => 30 | 12 => 31
  | _ => 0

/-- The range checks `datetime.datetime` performs on its fields. -/
def validDT (d : DateTime) : Bool :=
  1 ≤ d.year && d.year ≤ 9999 && 1 ≤ d.month && d.month ≤ 12 &&
  1 ≤ d.day && d.day ≤ daysInMonth d.year d.month &&
  d.hour ≤ 23 && d.minute ≤ 59 && d.second ≤ 59

/-- Numeric value of a decimal digit character. -/
def dval (c : Char) : Nat := c.toNat - 48

/-- Character of a list at an index, blank when out of range (only used at
positions the matched mask guarantees to exist). -/
def cAt (cs : List Char) (i : Nat) : Char := cs.getD i ' '

/-- Builds the datetime from the fixed digit positions of a matched mask. -/
def buildDT (cs : List Char) (hasTime hasSeconds : Bool) (tz : Option Tz) : DateTime :=
  { year := 1000 * dval (cAt cs 0) + 100 * dval (cAt cs 1) + 10 * dval (cAt cs 2) + dval (cAt cs 3)
    month := 10 * dval (cAt cs 5) + dval (cAt cs 6)
    day := 10 * dval (cAt cs 8) + dval (cAt cs 9)
    hour := if hasTime then 10 * dval (cAt cs 11) + dval (cAt cs 12) else 0
    minute := if hasTime then 10 * dval (cAt cs 14) + dval (cAt cs 15) else 0
    second := if hasSeconds then 10 * dval (cAt cs 17) + dval (cAt cs 18) else 0
    tzinfo := tz }

/-- Modelled from `datetime.fromisoformat` (Python 3.11+), restricted to the
five datetime shapes the scanner's `DATETIME_PATTERNS` can emit: parses the
calendar fields, reads a trailing `Z` as UTC, and raises `ValueError` when
the string has none of those shapes or a field is out of range (e.g. month
13). -/
def fromisoformat (s : String) : Except Error DateTime :=
  let cs := s.toList
  let dt? : Option DateTime :=
    if matchesMask mask20 cs then some (buildDT cs true true (some .utc))
    else if matchesMask mask19 cs then some (buildDT cs true true none)
    else if matchesMask mask17 cs then some (buildDT cs true false (some .utc))
    else if matchesMask mask16 cs then some (buildDT cs true false none)
    else if matchesMask mask10 cs then some (buildDT cs false false none)
    else none
  match dt? with
  | some dt => if validDT dt then .ok dt else .error .valueError
  | none => .error .valueError

/-- `django.utils.timezone.is_naive`. -/
def is_naive (d : DateTime) : Bool := d.tzinfo = none

/-- `django.utils.timezone.make_aware` with the default current timezone. -/
def make_aware (d : DateTime) : DateTime := { d with tzinfo := some .localtime }

/-- Values a Django `Q` kwarg can take in this module: strings, booleans and
datetimes. -/
inductive QVal where
  | s (v : String)
  | b (v : Bool)
  | d (v : DateTime)
deriving DecidableEq

/-- The filter predicate the interpreter produces: `Predicate.q key val` is
`Q(**\x7bkey: val\x7d)`, and the connectives are `&`, `|`, `~` on `Q`
objects. -/
inductive Predicate where
  | q (key : String) (val : QVal)
  | and (left right : Predicate)
  | or (left right : Predicate)
  | not (inner : Predicate)
deriving DecidableEq

namespace Interpreter

/-- `Interpreter.visit_query`: lowers a `Query` leaf by its
`(key, operator, value)` token types, mirroring the source's branch
structure, its defensive `InterpreterError` raises, and the dict lookups
(whose miss is Python's `KeyError`). -/
def visit_query (key operator value : Token) : Except Error Predicate :=
  if key.ttype = .MODEL then
    if operator.ttype = .EQUAL then
      match RESERVED_WORDS_SPACECRAFT_NAMES_INVERSE value.ttype with
      | some code => .ok (.q "model" (.s code))
      | none => .error .keyError
    else .error (.interpreterError "Invalid model query")
  else if key.ttype ∈ Parser.configKinds then
    if operator.ttype = .ISNULL ∧ value.ttype = .ISNULL then
      match RESERVED_WORDS_CONFIGURATION_NAMES_INVERSE key.ttype with
      | some name => .ok (.q (name ++ "__isnull") (.b false))
      | none => .error .keyError
    else .error (.interpreterError "Invalid configuration query")
  else if key.ttype = .SUBMITTED ∨ key.ttype = .UPLINKED then
    if operator.ttype ∈ Parser.comparatorKinds then do
      let noun := if key.ttype = .SUBMITTED then "submit_time" else "uplink_time"
      let dt0 ← fromisoformat value.lexeme
      let dt := if is_naive dt0 then make_aware dt0 else dt0
      if operator.ttype = .GREATER then .ok (.q (noun ++ "__gt") (.d dt))
      else if operator.ttype = .GREATER_EQUAL then .ok (.q (noun ++ "__gte") (.d dt))
      else if operator.ttype = .LESSER then .ok (.q (noun ++ "__lt") (.d dt))
      else if operator.ttype = .LESSER_EQUAL then .ok (.q (noun ++ "__lte") (.d dt))
      else if operator.ttype = .EQUAL then .ok (.q noun (.d dt))
      else if operator.ttype = .BANG_EQUAL then .ok (.not (.q noun (.d dt)))
      else .error (.interpreterError "Invalid datetime query")
    else if operator.ttype = .BY then
      let noun := if key.ttype = .SUBMITTED then "author" else "uplinked_by"
      .ok (.q (noun ++ "__username") (.s value.lexeme))
    else if operator.ttype = .ISNULL ∧ value.ttype = .ISNULL then
      let noun := if key.ttype = .SUBMITTED then "submitted" else "uplinked"
      .ok (.q noun (.b true))
    else .error (.interpreterError "Invalid status query")
  else .error (.interpreterError "Invalid status query")

/-- `Interpreter.evaluate` together with the visitor methods `visit_binary`,
`visit_unary`, `visit_grouping` and `visit_query`. -/
def evaluate : Expression → Except Error Predicate
  | .binary l operator r => do
    let lv ← evaluate l
    let rv ← evaluate r
    if operator.ttype = .AND then .ok (.and lv rv)
    else if operator.ttype = .OR then .ok (.or lv rv)
    else .error (.interpreterError "Invalid binary expression")
  | .unary operator r => do
    let rv ← evaluate r
    if operator.ttype = .NOT then .ok (.not rv)
    else .error (.interpreterError "Invalid unary expression")
  | .grouping e => evaluate e
  | .query k operator v => visit_query k operator v

end Interpreter

/-- `interpret_search_query`: the pipeline Scanner → Parser → Interpreter. -/
def interpret_search_query (query : String) : Except Error Predicate := do
  let tokens := Scanner.scan_tokens query
  let ast ← Parser.parse tokens
  Interpreter.evaluate ast

/-- The five `(key, operator, value)` leaf shapes of spec §4.3: a model
equality, a configuration presence test, a status/comparator/datetime
comparison, a status attribution, and a status flag test. -/
def wfQuery (key operator value : Token) : Prop :=
  (key.ttype = .MODEL ∧ operator.ttype = .EQUAL ∧ value.ttype ∈ Parser.spacecraftKinds)
  ∨ (key.ttype ∈ Parser.configKinds ∧ operator.ttype = .ISNULL ∧ value.ttype = .ISNULL)
  ∨ ((key.ttype = .SUBMITTED ∨ key.ttype = .UPLINKED)
      ∧ operator.ttype ∈ Parser.comparatorKinds ∧ value.ttype = .DATETIME)
  ∨ ((key.ttype = .SUBMITTED ∨ key.ttype = .UPLINKED)
      ∧ operator.ttype = .BY ∧ value.ttype = .LITERAL)
  ∨ ((key.ttype = .SUBMITTED ∨ key.ttype = .UPLINKED)
      ∧ operator.ttype = .ISNULL ∧ value.ttype = .ISNULL)

instance wfQuery.instDecidable (key operator value : Token) :
    Decidable (wfQuery key operator value) := by
  unfold wfQuery; infer_instance

/-- Well-formedness of a parser-produced AST: binary operators are AND/OR,
unary operators are NOT, and every `Query` leaf has one of the five §4.3
shapes (`wfQuery`). -/
def wfExpr : Expression → Prop
  | .binary l operator r => (operator.ttype = .AND ∨ operator.ttype = .OR) ∧ wfExpr l ∧ wfExpr r
  | .unary operator r => operator.ttype = .NOT ∧ wfExpr r
  | .grouping e => wfExpr e
  | .query k operator v => wfQuery k operator v

instance wfExpr.instDecidable : (e : Expression) → Decidable (wfExpr e)
  | .binary l operator r =>
    haveI := wfExpr.instDecidable l
    haveI := wfExpr.instDecidable r
    inferInstanceAs (Decidable ((operator.ttype = .AND ∨ operator.ttype = .OR) ∧ wfExpr l ∧ wfExpr r))
  | .unary operator r =>
    haveI := wfExpr.instDecidable r
    inferInstanceAs (Decidable (operator.ttype = .NOT ∧ wfExpr r))
  | .grouping e => wfExpr.instDecidable e
  | .query k operator v => inferInstanceAs (Decidable (wfQuery k operator v))

/-- Whether a pipeline result is the `InterpreterError` exception. -/
def isInterpreterError : Except Error Predicate → Bool
  | .error (.interpreterError _) => true
  | _ => false

/-- A shorthand for the `FieldEquals(model, code)` predicates of the spec. -/
def modelPred (code : String) : Predicate := .q "model" (.s code)

/-- The naive datetime 2023-01-01T00:00:00 with the default timezone
attached by `make_aware`. -/
def jan2023 : DateTime := ⟨2023, 1, 1, 0, 0, 0, some .localtime⟩

/-- C1: the claim states that `interpret_search_query` can only return a
predicate or raise `ParseError`/`InterpreterError`, even for a
datetime-shaped literal that is not a valid calendar date.  The code
violates this: the scanner's `DATETIME_PATTERNS` only check the digit
shape, so `"2023-13-45"` becomes a DATETIME token, the parse succeeds, and
`datetime.fromisoformat` in `Interpreter.visit_query` raises `ValueError`
(month 13 is out of range), which propagates out of
`interpret_search_query` uncaught. -/
theorem valueError_escapes_on_invalid_calendar_date :
    interpret_search_query "submitted > 2023-13-45" = .error .valueError := by decide

/-- C3: for date `2023-01-01` each comparator produces the corresponding
comparison of `submit_time` (resp. `uplink_time` for `uplinked`) against
the naive datetime 2023-01-01T00:00:00 made aware with the default
timezone: `>` maps to `gt`, `>=` to `gte`, `<` to `lt`, `<=` to `lte`,
`=` to a bare field equality and `!=` to its negation. -/
theorem status_comparator_datetime_queries :
    interpret_search_query "submitted > 2023-01-01" = .ok (.q "submit_time__gt" (.d jan2023))
    ∧ interpret_search_query "submitted >= 2023-01-01" = .ok (.q "submit_time__gte" (.d jan2023))
    ∧ interpret_search_query "submitted < 2023-01-01" = .ok (.q "submit_time__lt" (.d jan2023))
    ∧ interpret_search_query "submitted <= 2023-01-01" = .ok (.q "submit_time__lte" (.d jan2023))
    ∧ interpret_search_query "submitted = 2023-01-01" = .ok (.q "submit_time" (.d jan2023))
    ∧ interpret_search_query "submitted != 2023-01-01" = .ok (.not (.q "submit_time" (.d jan2023)))
    ∧ interpret_search_query "uplinked > 2023-01-01" = .ok (.q "uplink_time__gt" (.d jan2023))
    ∧ interpret_search_query "uplinked >= 2023-01-01" = .ok (.q "uplink_time__gte" (.d jan2023))
    ∧ interpret_search_query "uplinked < 2023-01-01" = .ok (.q "uplink_time__lt" (.d jan2023))
    ∧ interpret_search_query "uplinked <= 2023-01-01" = .ok (.q "uplink_time__lte" (.d jan2023))
    ∧ interpret_search_query "uplinked = 2023-01-01" = .ok (.q "uplink_time" (.d jan2023))
    ∧ interpret_search_query "uplinked != 2023-01-01" = .ok (.not (.q "uplink_time" (.d jan2023))) := by
  decide

/-- C5: implicit and explicit conjunction are equivalent: with and without
the `and` keyword the query `h1 submitted` interprets to the same
`And(FieldEquals(model, H1), FieldEquals(submitted, true))` predicate (the
parser synthesizes the AND operator for bare juxtaposition). -/
theorem implicit_and_explicit_and_equivalent :
    interpret_search_query "h1 and submitted"
      = .ok (.and (modelPred "H1") (.q "submitted" (.b true)))
    ∧ interpret_search_query "h1 submitted"
      = .ok (.and (modelPred "H1") (.q "submitted" (.b true))) := by decide

/-- C6 counterexample: the claim asserts that
`interpret_search_query "h1 or (h2 and uplinked)"` differs from the
grouping the same atom sequence gets without parentheses; in fact `and`
already binds tighter than `or`, so the parenthesized and the bare query
produce identical predicates. -/
theorem or_grouping_matches_unparenthesized :
    interpret_search_query "h1 or (h2 and uplinked)"
      = interpret_search_query "h1 or h2 and uplinked" := by decide

/-- C6 (amended): parenthesized grouping overrides the default precedence:
`(h1 or h2) and uplinked` evaluates to `And(Or(H1, H2), uplinked)`, which
differs from the predicate the same atoms yield without parentheses, while
`h1 or (h2 and uplinked)` evaluates to `Or(H1, And(H2, uplinked))`,
coinciding with the unparenthesized grouping because AND binds tighter
than OR; a `Grouping` node evaluates to exactly the predicate of its inner
expression. -/
theorem parenthesized_grouping_overrides_precedence :
    interpret_search_query "(h1 or h2) and uplinked"
      = .ok (.and (.or (modelPred "H1") (modelPred "H2")) (.q "uplinked" (.b true)))
    ∧ interpret_search_query "h1 or (h2 and uplinked)"
      = .ok (.or (modelPred "H1") (.and (modelPred "H2") (.q "uplinked" (.b true))))
    ∧ interpret_search_query "h1 or h2 and uplinked"
      = .ok (.or (modelPred "H1") (.and (modelPred "H2") (.q "uplinked" (.b true))))
    ∧ interpret_search_query "(h1 or h2) and uplinked"
      ≠ interpret_search_query "h1 or h2 and uplinked"
    ∧ ∀ e : Expression, Interpreter.evaluate (.grouping e) = Interpreter.evaluate e := by
  refine ⟨by decide, by decide, by decide, by decide, fun e => rfl⟩

/-- C7: each malformed query raises `ParseError`: a status word with a
dangling comparator (with no token or a non-datetime literal after it), an
unmatched opening parenthesis, and a status word with `by` but no
following generic-literal username. -/
theorem parse_errors_on_malformed_queries :
    interpret_search_query "submitted >"
      = .error (.parseError "A valid datetime is expected after \x27submitted >\x27 expression.")
    ∧ interpret_search_query "submitted > baddate"
      = .error (.parseError "A valid datetime is expected after \x27submitted >\x27 expression.")
    ∧ interpret_search_query "(h1"
      = .error (.parseError "Expected \x27)\x27 after expression")
    ∧ interpret_search_query "submitted by"
      = .error (.parseError "An username is expected after \x27submitted by\x27 expression.")
    ∧ interpret_search_query "uplinked by"
      = .error (.parseError "An username is expected after \x27uplinked by\x27 expression.") := by
  decide

/-- C8: each model atom `h1`..`h6`, in lower or upper case, interprets to
`FieldEquals(model, code)` with the corresponding upper-case code, and the
out-of-order `RESERVED_WORDS_SPACECRAFT_NAMES_INVERSE` table indeed maps
each `MODEL_Hi` kind to the code `Hi`. -/
theorem model_atoms_map_to_codes :
    interpret_search_query "h1" = .ok (modelPred "H1")
    ∧ interpret_search_query "h2" = .ok (modelPred "H2")
    ∧ interpret_search_query "h3" = .ok (modelPred "H3")
    ∧ interpret_search_query "h4" = .ok (modelPred "H4")
    ∧ interpret_search_query "h5" = .ok (modelPred "H5")
    ∧ interpret_search_query "h6" = .ok (modelPred "H6")
    ∧ interpret_search_query "H1" = .ok (modelPred "H1")
    ∧ interpret_search_query "H2" = .ok (modelPred "H2")
    ∧ interpret_search_query "H3" = .ok (modelPred "H3")
    ∧ interpret_search_query "H4" = .ok (modelPred "H4")
    ∧ interpret_search_query "H5" = .ok (modelPred "H5")
    ∧ interpret_search_query "H6" = .ok (modelPred "H6")
    ∧ RESERVED_WORDS_SPACECRAFT_NAMES_INVERSE .MODEL_H1 = some "H1"
    ∧ RESERVED_WORDS_SPACECRAFT_NAMES_INVERSE .MODEL_H2 = some "H2"
    ∧ RESERVED_WORDS_SPACECRAFT_NAMES_INVERSE .MODEL_H3 = some "H3"
    ∧ RESERVED_WORDS_SPACECRAFT_NAMES_INVERSE .MODEL_H4 = some "H4"
    ∧ RESERVED_WORDS_SPACECRAFT_NAMES_INVERSE .MODEL_H5 = some "H5"
    ∧ RESERVED_WORDS_SPACECRAFT_NAMES_INVERSE .MODEL_H6 = some "H6" := by decide

theorem scanLoop_ends_eof (fuel : Nat) :
    ∀ (text : List Char) (current : Nat),
      ∃ pre, Scanner.scanLoop text fuel current = pre ++ [⟨.EOF, ""⟩] := by
  induction fuel with
  | zero => intro text current; exact ⟨[], rfl⟩
  | succ f ih =>
    intro text current
    rw [Scanner.scanLoop]
    split
    · dsimp only
      obtain ⟨pre, hp⟩ := ih text (Scanner.scan_token text current).2
      refine ⟨(Scanner.scan_token text current).1.toList ++ pre, ?_⟩
      rw [hp, List.append_assoc]
    · exact ⟨[], rfl⟩

/-- C9: for every input string the scanner is a total pure function (it is
a Lean function, so it terminates, signals no error and touches no outside
state) and the returned token sequence always ends in the EOF token. -/
theorem scan_tokens_ends_with_eof (s : String) :
    ∃ pre, Scanner.scan_tokens s = pre ++ [⟨.EOF, ""⟩] :=
  scanLoop_ends_eof s.toList.length s.toList 0

/-- C10: when the scanner meets a digit at which none of the five datetime
patterns matches, it consumes exactly that one character and emits no
token; in particular scanning `9h1` yields the same token kinds as
scanning `h1`. -/
theorem unmatched_digit_dropped :
    (∀ (text : List Char) (cur : Nat) (c : Char),
        text.get? cur = some c → c.isDigit = true →
        Scanner.catch_datetime text (cur + 1) = none →
        Scanner.scan_token text cur = (none, cur + 1))
    ∧ (Scanner.scan_tokens "9h1").map Token.ttype = (Scanner.scan_tokens "h1").map Token.ttype := by
  constructor
  · intro text cur c hget hd hdt
    have h1 : ¬(c = '=') := by rintro rfl; exact absurd hd (by decide)
    have h2 : ¬(c = '(') := by rintro rfl; exact absurd hd (by decide)
    have h3 : ¬(c = ')') := by rintro rfl; exact absurd hd (by decide)
    have h4 : ¬(c = '>') := by rintro rfl; exact absurd hd (by decide)
    have h5 : ¬(c = '<') := by rintro rfl; exact absurd hd (by decide)
    have h6 : ¬(c = '!') := by rintro rfl; exact absurd hd (by decide)
    have hw : c.isWhitespace = false := by
      cases hws : c.isWhitespace
      · rfl
      · exfalso
        simp only [Char.isWhitespace, Bool.or_eq_true, decide_eq_true_eq] at hws
        rcases hws with ((e | e) | e) | e <;> subst e <;> exact absurd hd (by decide)
    unfold Scanner.scan_token
    rw [hget]
    simp [h1, h2, h3, h4, h5, h6, hw, hd, hdt]
  · decide

theorem unmatched_digit_dropped_witness :
    Scanner.scan_token "9h1".toList 0 = (none, 0 + 1) :=
  unmatched_digit_dropped.1 "9h1".toList 0 '9' (by decide) (by decide) (by decide)

/-- The `Query` leaf the parser builds for a lone `h1` atom. -/
def h1Query : Expression := .query ⟨.MODEL, "_model"⟩ ⟨.EQUAL, "_="⟩ ⟨.MODEL_H1, "h1"⟩

/-- The token list `h1 ) <rest>`: a model atom, a stray right parenthesis,
then arbitrary further tokens. -/
def h1ParenTs (rest : List Token) : List Token :=
  ⟨.MODEL_H1, "h1"⟩ :: ⟨.RIGHT_PAREN, ")"⟩ :: rest

theorem run_expression_h1 (k : Nat) (rest : List Token) :
    Parser.run (k + 1 + 1 + 1 + 1 + 1) .expression (h1ParenTs rest) 0 = .ok (h1Query, 1) := by
  simp [Parser.run, Parser.pMatch, Parser.pAtEnd, Parser.pCheck, Parser.spacecraftKinds,
    h1ParenTs, h1Query, Bind.bind, Except.bind]

/-- C2: a well-formed expression followed by an unmatched right parenthesis
and arbitrary further tokens does not make `interpret_search_query` raise:
the parser stops at the stray `)` (the and- and or-loops both treat it as a
terminator and `parse` never checks that all input was consumed), returning
the predicate of the prefix expression alone and silently discarding
everything from the `)` onward; for the example `h1) or h2` the result is
`FieldEquals(model, "H1")`. -/
theorem stray_right_paren_stops_parse :
    (∀ rest : List Token, Parser.parse (h1ParenTs rest) = .ok h1Query)
    ∧ interpret_search_query "h1) or h2" = .ok (modelPred "H1") := by
  constructor
  · intro rest
    unfold Parser.parse Parser.pExpression
    rw [show 7 * (h1ParenTs rest).length + 8
        = 7 * (h1ParenTs rest).length + 3 + 1 + 1 + 1 + 1 + 1 by omega]
    rw [run_expression_h1]
    rfl
  · decide

theorem exceptBind_ok {α β : Type} {x : Except Error α} {f : α → Except Error β} {b : β}
    (h : x >>= f = .ok b) : ∃ a, x = .ok a ∧ f a = .ok b := by
  cases x with
  | error e => simp [Bind.bind, Except.bind] at h
  | ok a => exact ⟨a, rfl, by simpa [Bind.bind, Except.bind] using h⟩

theorem pMatch_ok_some {ts : List Token} {pos : Nat} {expected : List TokenType}
    {t : Token} {p : Nat} (h : Parser.pMatch ts pos expected = .ok (some (t, p))) :
    t.ttype ∈ expected ∧ p = pos + 1 := by
  unfold Parser.pMatch at h
  cases hg : ts.get? pos <;> rw [hg] at h <;> dsimp only at h
  · cases h
  · split_ifs at h with h1 h2
    · cases h
    · simp at h
      obtain ⟨⟨rfl, _⟩, rfl⟩ := h
      exact ⟨h2, rfl⟩
    · cases h

/-- Well-formedness of the accumulated expression carried by a loop frame
(trivial for the other frames). -/
def frameWF : Parser.Frame → Prop
  | .orLoop e => wfExpr e
  | .andLoop e => wfExpr e
  | _ => True

theorem run_wf (fuel : Nat) :
    ∀ (frame : Parser.Frame) (ts : List Token) (pos : Nat) (e : Expression) (p : Nat),
      frameWF frame → Parser.run fuel frame ts pos = .ok (e, p) → wfExpr e := by
  induction fuel with
  | zero => intro frame ts pos e p _ h; simp [Parser.run] at h
  | succ fuel ih =>
    intro frame ts pos e p hfw h
    cases frame with
    | expression =>
      simp only [Parser.run] at h
      exact ih .orE ts pos e p trivial h
    | orE =>
      simp only [Parser.run] at h
      obtain ⟨⟨e1, p1⟩, h1, h2⟩ := exceptBind_ok h
      exact ih (.orLoop e1) ts p1 e p (ih .andE ts pos e1 p1 trivial h1) h2
    | orLoop a =>
      simp only [Parser.run] at h
      obtain ⟨m, h1, h2⟩ := exceptBind_ok h
      cases m with
      | none =>
        simp at h2
        obtain ⟨rfl, rfl⟩ := h2
        exact hfw
      | some tp =>
        obtain ⟨opTok, p1⟩ := tp
        dsimp only at h2
        obtain ⟨⟨r, p2⟩, h3, h4⟩ := exceptBind_ok h2
        have hop : opTok.ttype = .OR := by simpa using (pMatch_ok_some h1).1
        refine ih (.orLoop (.binary a opTok r)) ts p2 e p ?_ h4
        exact ⟨Or.inr hop, hfw, ih .andE ts p1 r p2 trivial h3⟩
    | andE =>
      simp only [Parser.run] at h
      obtain ⟨⟨e1, p1⟩, h1, h2⟩ := exceptBind_ok h
      exact ih (.andLoop e1) ts p1 e p (ih .unaryE ts pos e1 p1 trivial h1) h2
    | andLoop a =>
      simp only [Parser.run] at h
      obtain ⟨m, h1, h2⟩ := exceptBind_ok h
      cases m with
      | some tp =>
        obtain ⟨opTok, p1⟩ := tp
        dsimp only at h2
        obtain ⟨⟨r, p2⟩, h3, h4⟩ := exceptBind_ok h2
        refine ih (.andLoop (.binary a ⟨.AND, opTok.lexeme⟩ r)) ts p2 e p ?_ h4
        exact ⟨Or.inl rfl, hfw, ih .unaryE ts p1 r p2 trivial h3⟩
      | none =>
        dsimp only at h2
        obtain ⟨atEnd, h3, h4⟩ := exceptBind_ok h2
        cases atEnd with
        | true =>
          simp at h4
          obtain ⟨rfl, rfl⟩ := h4
          exact hfw
        | false =>
          simp only [Bool.false_eq_true, if_false] at h4
          obtain ⟨stop, h5, h6⟩ := exceptBind_ok h4
          cases stop with
          | true =>
            simp at h6
            obtain ⟨rfl, rfl⟩ := h6
            exact hfw
          | false =>
            simp only [Bool.false_eq_true, if_false] at h6
            obtain ⟨⟨r, p2⟩, h7, h8⟩ := exceptBind_ok h6
            refine ih (.andLoop (.binary a ⟨.AND, "_and"⟩ r)) ts p2 e p ?_ h8
            exact ⟨Or.inl rfl, hfw, ih .unaryE ts pos r p2 trivial h7⟩
    | unaryE =>
      simp only [Parser.run] at h
      obtain ⟨m, h1, h2⟩ := exceptBind_ok h
      cases m with
      | none =>
        dsimp only at h2
        exact ih .primary ts pos e p trivial h2
      | some tp =>
        obtain ⟨opTok, p1⟩ := tp
        dsimp only at h2
        obtain ⟨⟨r, p2⟩, h3, h4⟩ := exceptBind_ok h2
        simp at h4
        obtain ⟨rfl, rfl⟩ := h4
        have hop : opTok.ttype = .NOT := by simpa using (pMatch_ok_some h1).1
        exact ⟨hop, ih .primary ts p1 r p2 trivial h3⟩
    | primary =>
      simp only [Parser.run] at h
      obtain ⟨m1, h1, h2⟩ := exceptBind_ok h
      cases m1 with
      | some tp =>
        obtain ⟨t, p1⟩ := tp
        simp at h2
        obtain ⟨rfl, rfl⟩ := h2
        exact Or.inl ⟨rfl, rfl, (pMatch_ok_some h1).1⟩
      | none =>
        dsimp only at h2
        obtain ⟨m2, h3, h4⟩ := exceptBind_ok h2
        cases m2 with
        | some tp =>
          obtain ⟨t, p1⟩ := tp
          simp at h4
          obtain ⟨rfl, rfl⟩ := h4
          exact Or.inr (Or.inl ⟨(pMatch_ok_some h3).1, rfl, rfl⟩)
        | none =>
          dsimp only at h4
          obtain ⟨m3, h5, h6⟩ := exceptBind_ok h4
          cases m3 with
          | some tp =>
            obtain ⟨noun, p1⟩ := tp
            have hnoun : noun.ttype = .SUBMITTED ∨ noun.ttype = .UPLINKED := by
              simpa using (pMatch_ok_some h5).1
            dsimp only at h6
            obtain ⟨m4, h7, h8⟩ := exceptBind_ok h6
            cases m4 with
            | some tp2 =>
              obtain ⟨pred, p2⟩ := tp2
              dsimp only at h8
              obtain ⟨m5, h9, h10⟩ := exceptBind_ok h8
              cases m5 with
              | some tp3 =>
                obtain ⟨objective, p3⟩ := tp3
                simp at h10
                obtain ⟨rfl, rfl⟩ := h10
                have hcmp : pred.ttype ∈ Parser.comparatorKinds := (pMatch_ok_some h7).1
                have hdt : objective.ttype = .DATETIME := by simpa using (pMatch_ok_some h9).1
                exact Or.inr (Or.inr (Or.inl ⟨hnoun, hcmp, hdt⟩))
              | none => simp at h10
            | none =>
              dsimp only at h8
              obtain ⟨m6, h9, h10⟩ := exceptBind_ok h8
              cases m6 with
              | some tp2 =>
                obtain ⟨pred, p2⟩ := tp2
                dsimp only at h10
                obtain ⟨m7, h11, h12⟩ := exceptBind_ok h10
                cases m7 with
                | some tp3 =>
                  obtain ⟨objective, p3⟩ := tp3
                  simp at h12
                  obtain ⟨rfl, rfl⟩ := h12
                  have hby : pred.ttype = .BY := by simpa using (pMatch_ok_some h9).1
                  have hlit : objective.ttype = .LITERAL := by simpa using (pMatch_ok_some h11).1
                  exact Or.inr (Or.inr (Or.inr (Or.inl ⟨hnoun, hby, hlit⟩)))
                | none => simp at h12
              | none =>
                simp at h10
                obtain ⟨rfl, rfl⟩ := h10
                exact Or.inr (Or.inr (Or.inr (Or.inr ⟨hnoun, rfl, rfl⟩)))
          | none =>
            dsimp only at h6
            obtain ⟨m8, h7, h8⟩ := exceptBind_ok h6
            cases m8 with
            | some tp =>
              obtain ⟨t, p1⟩ := tp
              dsimp only at h8
              obtain ⟨⟨e2, p2⟩, h9, h10⟩ := exceptBind_ok h8
              obtain ⟨⟨tk, p3⟩, h11, h12⟩ := exceptBind_ok h10
              simp at h12
              obtain ⟨rfl, rfl⟩ := h12
              exact ih .expression ts p1 e2 p2 trivial h9
            | none =>
              dsimp only at h8
              obtain ⟨t, h9, h10⟩ := exceptBind_ok h8
              simp at h10

theorem fromisoformat_error {s : String} {err : Error}
    (h : fromisoformat s = .error err) : err = .valueError := by
  unfold fromisoformat at h
  dsimp only at h
  split at h
  · split at h
    · cases h
    · injection h with h'
      exact h'.symm
  · injection h with h'
    exact h'.symm

theorem visit_query_wf (k op v : Token) (hwf : wfQuery k op v) :
    isInterpreterError (Interpreter.visit_query k op v) = false := by
  rcases hwf with ⟨h1, h2, h3⟩ | ⟨h1, h2, h3⟩ | ⟨h1, h2, h3⟩ | ⟨h1, h2, h3⟩ | ⟨h1, h2, h3⟩
  · simp only [Parser.spacecraftKinds, List.mem_cons, List.not_mem_nil, or_false] at h3
    rcases h3 with h3 | h3 | h3 | h3 | h3 | h3 <;>
      simp [Interpreter.visit_query, h1, h2, h3, RESERVED_WORDS_SPACECRAFT_NAMES_INVERSE,
        MODELS, SPACECRAFTS_NAMES, isInterpreterError]
  · simp only [Parser.configKinds, List.mem_cons, List.not_mem_nil, or_false] at h1
    rcases h1 with h1 | h1 | h1 | h1 | h1 | h1 | h1 <;>
      simp [Interpreter.visit_query, h1, h2, h3, RESERVED_WORDS_CONFIGURATION_NAMES_INVERSE,
        Parser.configKinds, isInterpreterError]
  · simp only [Parser.comparatorKinds, List.mem_cons, List.not_mem_nil, or_false] at h2
    cases hf : fromisoformat v.lexeme with
    | error err =>
      have he := fromisoformat_error hf
      subst he
      rcases h1 with h1 | h1 <;> rcases h2 with h2 | h2 | h2 | h2 | h2 | h2 <;>
        simp [Interpreter.visit_query, h1, h2, h3, hf, Parser.configKinds,
          Parser.comparatorKinds, Bind.bind, Except.bind, isInterpreterError]
    | ok dt =>
      rcases h1 with h1 | h1 <;> rcases h2 with h2 | h2 | h2 | h2 | h2 | h2 <;>
        simp [Interpreter.visit_query, h1, h2, h3, hf, Parser.configKinds,
          Parser.comparatorKinds, Bind.bind, Except.bind, isInterpreterError]
  · rcases h1 with h1 | h1 <;>
      simp [Interpreter.visit_query, h1, h2, h3, Parser.configKinds, Parser.comparatorKinds,
        isInterpreterError]
  · rcases h1 with h1 | h1 <;>
      simp [Interpreter.visit_query, h1, h2, h3, Parser.configKinds, Parser.comparatorKinds,
        isInterpreterError]

theorem evaluate_wf_no_interp : ∀ e : Expression, wfExpr e →
    isInterpreterError (Interpreter.evaluate e) = false := by
  intro e
  induction e with
  | binary l operator r ihl ihr =>
    intro hwf
    obtain ⟨hop, hl, hr⟩ := hwf
    simp only [Interpreter.evaluate]
    cases hl2 : Interpreter.evaluate l with
    | error err =>
      have hil := ihl hl
      rw [hl2] at hil
      simpa [Bind.bind, Except.bind] using hil
    | ok lv =>
      cases hr2 : Interpreter.evaluate r with
      | error err =>
        have hir := ihr hr
        rw [hr2] at hir
        simpa [Bind.bind, Except.bind] using hir
      | ok rv =>
        rcases hop with hop | hop <;>
          simp [Bind.bind, Except.bind, hop, isInterpreterError]
  | unary operator r ihr =>
    intro hwf
    obtain ⟨hop, hr⟩ := hwf
    simp only [Interpreter.evaluate]
    cases hr2 : Interpreter.evaluate r with
    | error err =>
      have hir := ihr hr
      rw [hr2] at hir
      simpa [Bind.bind, Except.bind] using hir
    | ok rv => simp [Bind.bind, Except.bind, hop, isInterpreterError]
  | grouping e ih =>
    intro hwf
    simpa [Interpreter.evaluate] using ih hwf
  | query k operator v =>
    intro hwf
    exact visit_query_wf k operator v hwf

/-- C4: for every token list on which the parse succeeds, the returned AST
is well formed: every `Query` leaf has one of the five §4.3 shapes (and
binary operators are AND/OR, unary ones NOT), and consequently the
interpreter's defensive `InterpreterError` branches are unreachable on
that AST. -/
theorem parse_ok_leaves_wellformed (ts : List Token) (ast : Expression)
    (h : Parser.parse ts = .ok ast) :
    wfExpr ast ∧ isInterpreterError (Interpreter.evaluate ast) = false := by
  unfold Parser.parse Parser.pExpression at h
  cases hr : Parser.run (7 * ts.length + 8) .expression ts 0 with
  | error err => rw [hr] at h; cases h
  | ok ep =>
    obtain ⟨e, p⟩ := ep
    rw [hr] at h
    simp [Except.map] at h
    subst h
    have hwf := run_wf (7 * ts.length + 8) .expression ts 0 e p trivial hr
    exact ⟨hwf, evaluate_wf_no_interp e hwf⟩

theorem parse_ok_leaves_wellformed_witness :
    wfExpr h1Query ∧ isInterpreterError (Interpreter.evaluate h1Query) = false :=
  parse_ok_leaves_wellformed [⟨.MODEL_H1, "h1"⟩, ⟨.EOF, ""⟩] h1Query (by decide)
